import Mathlib

/-!
Verification of the DQN agent core of the TuringRetro repository
(`src/agents/dqn/agent.py`): n-step accumulation, prioritized-replay
interaction, training-step control flow, soft target updates and
epsilon-greedy action selection.

Numeric values (rewards, discounts, agent parameters) are modelled as
rationals, except where the code takes a real-valued power (the
importance-sampling weights `(N * p) ** (-beta)`), which is modelled over
the reals.  Observations are opaque to every property considered here and
are modelled as natural-number identifiers; network parameter tensors are
flattened to lists of rationals.  The classes `NStepBuffer` and
`ReplayBuffer` live in `experience_replay.py`, which is not part of the
available sources; the pieces of their behaviour that claims depend on are
reconstructed from the specification and marked `Modelled from the spec`.
The Q-networks and the optimizer are opaque collaborators (the spec keeps
the architecture out of scope), so the body of one training iteration is
abstracted as a state-transforming function where only control flow is at
stake, and as its explicit tensor formulas where the formulas are.
-/

namespace TuringRetro

/-- A transition `(state, action, reward, next_state, done)` as produced by
the environment or synthesized by the n-step accumulator; observation
contents never matter to the properties below, so states are opaque
identifiers. -/
structure Transition where
  state : ℕ
  action : ℕ
  reward : ℚ
  next_state : ℕ
  done : Bool
deriving DecidableEq

/-- Discounted sum `Σ γ^i r_i` over a list of rewards. -/
def discountedSum (gamma : ℚ) : List ℚ → ℚ
  | [] => 0
  | r :: rs => r + gamma * discountedSum gamma rs

/-- Transition synthesized from a window of raw transitions: state and
action of the oldest entry, discounted reward sum over the window,
next-state and done flag of the newest entry.  The second argument is a
default for the (never reached) empty-window case. -/
def synthTransition (gamma : ℚ) (w : List Transition) (dflt : Transition) : Transition :=
  { state := (w.headD dflt).state
    action := (w.headD dflt).action
    reward := discountedSum gamma (w.map (fun t => t.reward))
    next_state := (w.getLastD dflt).next_state
    done := (w.getLastD dflt).done }

/-- Modelled from the spec: state of the class `NStepBuffer` of
`src/agents/dqn/experience_replay.py`, whose source is not available (only
its construction and calls in `agent.py` are).  It keeps a bounded window
of the most recent raw transitions of the current episode together with
the discount and the window capacity fixed at construction. -/
structure NStepBuffer where
  window : List Transition
  gamma : ℚ
  n_step : ℕ

/-- Modelled from the spec: `NStepBuffer.update(state, action, reward,
next_state, done) -> Optional[Transition]`.  The new step is appended to
the window; if the window then still has fewer than `n_step` entries and
the step is not terminal, nothing is emitted; otherwise one synthesized
transition is emitted, and the window is cleared on a terminal step or
advanced past its oldest entry otherwise.  The call returns at most one
transition, exactly as the `Optional[Transition]` contract states. -/
def NStepBuffer.update (b : NStepBuffer) (t : Transition) : Option Transition × NStepBuffer :=
  let w := b.window ++ [t]
  if w.length < b.n_step ∧ t.done = false then
    (none, { b with window := w })
  else
    let out := synthTransition b.gamma w t
    if t.done = true then
      (some out, { b with window := [] })
    else
      (some out, { b with window := w.drop 1 })

/-- Feeding a sequence of raw steps one call at a time into
`NStepBuffer.update`, collecting every emitted transition in order.  This
is what repeated calls of `DQNAgent.remember` perform on the accumulator
side (`agent.py`, lines 72-75): one `update` per environment step, the
emitted transition (if any) forwarded to the replay store. -/
def runUpdates : NStepBuffer → List Transition → List Transition × NStepBuffer
  | b, [] => ([], b)
  | b, t :: ts =>
      let r := NStepBuffer.update b t
      let rest := runUpdates r.2 ts
      (r.1.toList ++ rest.1, rest.2)

/-- `DQNAgent.remember` (`agent.py`, lines 72-75): forwards one raw step
into the accumulator and appends the emitted transition, when there is
one, to the replay store contents. -/
def remember (b : NStepBuffer) (mem : List Transition) (t : Transition) :
    NStepBuffer × List Transition :=
  match NStepBuffer.update b t with
  | (none, b2) => (b2, mem)
  | (some e, b2) => (b2, mem ++ [e])

/-- Per-sample squared-error loss of `agent.py` line 108:
`F.mse_loss(curr_q, target, reduction="none")`, elementwise
`(Q(s,a) - target)^2`. -/
def mseLossNone (pred target : List ℚ) : List ℚ :=
  List.zipWith (fun q t => (q - t) ^ 2) pred target

/-- The per-index values the learner passes to
`ReplayBuffer.update_priority` in `agent.py` line 109:
`torch.abs(loss)` where `loss` is the reduction-free MSE loss. -/
def priorityValuesWritten (pred target : List ℚ) : List ℚ :=
  (mseLossNone pred target).map (fun x => |x|)

/-- The spec sentence for comparison (refinement side of C2): the absolute
TD-errors `|Q(s,a) - target|` per sample. -/
def absTDError (pred target : List ℚ) : List ℚ :=
  List.zipWith (fun q t => |q - t|) pred target

/-- Maximum of a tensor flattened to a list, as taken by `torch.max` and
`Tensor.max()`; the extra argument is a default for the empty case, which
torch rejects at runtime. -/
def tensorMax {α : Type} [LinearOrder α] (l : List α) (d : α) : α :=
  match l with
  | [] => d
  | x :: xs => xs.foldl max x

/-- Row-wise maxima `torch.max(next_q, -1)[0]` of the target network's
output on the batch of next states (`agent.py` lines 98-100). -/
def maxNextQ (nextQ : List (List ℚ)) : List ℚ :=
  nextQ.map (fun row => tensorMax row 0)

/-- Bootstrap targets of `agent.py` line 102:
`rewards + (1 - dones) * (gamma ** n_step) * max_next_q`, elementwise over
the batch; `nextQ` is the batch of target-network action-value rows. -/
def bootstrapTargets (gamma : ℚ) (n : ℕ) (rewards dones : List ℚ)
    (nextQ : List (List ℚ)) : List ℚ :=
  List.zipWith (fun rd mq => rd.1 + (1 - rd.2) * gamma ^ n * mq)
    (rewards.zip dones) (maxNextQ nextQ)

/-- Raw importance-sampling weights of `agent.py` line 104:
`w = (N * priorities) ** (-loss_param)`, a real power since the exponent
`beta` is not an integer. -/
noncomputable def isWeights (N beta : ℝ) (ps : List ℝ) : List ℝ :=
  ps.map (fun p => (N * p) ^ (-beta))

/-- Normalization of `agent.py` line 105: `w = w / w.max()`. -/
noncomputable def normalizeByMax (w : List ℝ) : List ℝ :=
  w.map (fun x => x / tensorMax w 0)

/-- Beta annealing of `agent.py` line 106:
`self.loss_param *= 1+self.loss_param_decay if self.loss_param < 1 else 1`,
which Python parses as multiplying by the conditional expression. -/
def betaStep (beta decay : ℚ) : ℚ :=
  beta * (if beta < 1 then 1 + decay else 1)

/-- Soft update of one pass of `DQNAgent.update_target` (`agent.py` lines
134-136): each target parameter is multiplied in place by `1 - tau` and
then `tau` times the online parameter is added. -/
def softUpdate (tau : ℚ) (targetP onlineP : List ℚ) : List ℚ :=
  List.zipWith (fun t p => t * (1 - tau) + tau * p) targetP onlineP

/-- Mutable state of `DQNAgent` relevant to the claims: replay store
occupancy and contents, exploration and importance-sampling parameters,
and the two networks' (flattened) parameter vectors. -/
structure AgentState where
  batch_size : ℕ
  memSize : ℕ
  memData : List Transition
  memPriorities : List ℚ
  epsilon : ℚ
  epsilon_decay : ℚ
  min_epsilon : ℚ
  loss_param : ℚ
  loss_param_decay : ℚ
  gamma : ℚ
  tau : ℚ
  n_step : ℕ
  dqnParams : List ℚ
  targetParams : List ℚ

/-- `DQNAgent.update_target` (`agent.py` lines 132-136) at the state
level: rewrites the target parameters by the soft blend and touches
nothing else. -/
def update_target (s : AgentState) : AgentState :=
  { s with targetParams := softUpdate s.tau s.targetParams s.dqnParams }

/-- Result of `DQNAgent.train`: the not-ready sentinel `-float("inf")`
(line 82), Python's implicit `None` when the `for` loop body never runs
(`epochs = 0`), or the final loss returned from inside the loop body
(line 123). -/
inductive TrainResult where
  | negInf : TrainResult
  | pyNone : TrainResult
  | loss : ℚ → TrainResult
deriving DecidableEq

/-- The `for epoch in range(epochs)` loop of `agent.py` lines 84-123.  Its
body unconditionally ends in `return final_loss` (line 123 is indented
inside the loop), so the loop body runs at most once; with `epochs = 0`
the function falls off the end and returns `None`.  The body itself —
sample, loss, priority update, gradient step, soft target update — is
abstracted as one state-transforming function `step` returning the loss,
since it involves the opaque networks and optimizer. -/
def trainLoop (step : AgentState → ℚ × AgentState) : ℕ → AgentState → TrainResult × AgentState
  | 0, s => (TrainResult.pyNone, s)
  | _ + 1, s => (TrainResult.loss (step s).1, (step s).2)

/-- `DQNAgent.train` (`agent.py` lines 78-123): the readiness check
`if self.batch_size > self.memory.size: return -float("inf")` followed by
the training loop. -/
def train (step : AgentState → ℚ × AgentState) (s : AgentState) (epochs : ℕ) :
    TrainResult × AgentState :=
  if s.batch_size > s.memSize then (TrainResult.negInf, s)
  else trainLoop step epochs s

/-- Epsilon update at the top of `DQNAgent.act` (`agent.py` lines 58-59):
`epsilon *= epsilon_decay; epsilon = max(epsilon, min_epsilon)`. -/
def decayedEpsilon (eps decay minEps : ℚ) : ℚ :=
  max (eps * decay) minEps

/-- Index of the first maximal entry, as `argmax(dim=-1)` computes on the
network's output row (`agent.py` line 67). -/
def argmaxIdx (l : List ℚ) : ℕ :=
  (List.range l.length).foldl (fun best i => if l.getD best 0 < l.getD i 0 then i else best) 0

/-- `DQNAgent.act` (`agent.py` lines 57-70): updates epsilon first (in
every call), then either returns the sampled random action — only when
the uniform draw `u` falls below the updated epsilon and `evaluate` is
false — or the argmax of the online network's output `qOut` on the given
state.  Returns the chosen action together with the updated epsilon. -/
def act (eps decay minEps : ℚ) (u : ℚ) (randAct : ℕ) (qOut : List ℚ)
    (evaluate : Bool) : ℕ × ℚ :=
  let e := decayedEpsilon eps decay minEps
  if u < e ∧ evaluate = false then (randAct, e) else (argmaxIdx qOut, e)

/-- Parameter synchronization in `DQNAgent.__init__` (`agent.py` lines
52-53): iterates over `zip(dqn.parameters(), target_dqn.parameters())`
and copies the second component of each pair into the first, so the
online network's parameters are overwritten with the target's.  Returns
the pair (online parameters, target parameters) after the loop. -/
def initSync (dqnP targetP : List ℚ) : List ℚ × List ℚ :=
  (List.zipWith (fun _t p => p) dqnP targetP, targetP)

/-- `DQNAgent.load_model` (`agent.py` lines 128-130): loads the same
checkpoint into the online and the target network. -/
def load_model (checkpoint : List ℚ) (s : AgentState) : AgentState :=
  { s with dqnParams := checkpoint, targetParams := checkpoint }

/-- Concrete agent state with fewer stored transitions than the batch
size, used to instantiate hypotheses of the training-step theorems. -/
def smallAgentState : AgentState :=
  { batch_size := 2
    memSize := 1
    memData := [⟨0, 0, 1, 1, false⟩]
    memPriorities := [1]
    epsilon := 1/2
    epsilon_decay := 1/2
    min_epsilon := 1/100
    loss_param := 2/5
    loss_param_decay := 1/100
    gamma := 99/100
    tau := 1/100
    n_step := 3
    dqnParams := [1, 2]
    targetParams := [3, 4] }

/-- Concrete agent state whose replay store holds at least a batch. -/
def readyAgentState : AgentState :=
  { smallAgentState with memSize := 4 }

/-- Concrete two-step episode (length 2, terminal second step) for the
accumulator counterexample. -/
def cexEpisode : List Transition :=
  [⟨0, 0, 1, 1, false⟩, ⟨1, 0, 1, 2, true⟩]

/-- Fresh accumulator with window capacity 3, so that the episode above is
shorter than the capacity. -/
def cexBuffer : NStepBuffer :=
  { window := [], gamma := 1/2, n_step := 3 }

/-! ## Helper lemmas -/

theorem le_foldl_max {α : Type} [LinearOrder α] (l : List α) (x : α) :
    x ≤ l.foldl max x := by
  induction l generalizing x with
  | nil => exact le_refl x
  | cons y ys ih => exact le_trans (le_max_left x y) (ih (max x y))

theorem mem_le_foldl_max {α : Type} [LinearOrder α] (l : List α) (x a : α)
    (h : a ∈ l) : a ≤ l.foldl max x := by
  induction l generalizing x with
  | nil => cases h
  | cons y ys ih =>
      rcases List.mem_cons.mp h with rfl | h2
      · exact le_trans (le_max_right x a) (le_foldl_max ys (max x a))
      · exact ih (max x y) h2

theorem foldl_max_self_or_mem {α : Type} [LinearOrder α] (l : List α) (x : α) :
    l.foldl max x = x ∨ l.foldl max x ∈ l := by
  induction l generalizing x with
  | nil => exact Or.inl rfl
  | cons y ys ih =>
      rcases ih (max x y) with h | h
      · rcases max_cases x y with ⟨h1, _⟩ | ⟨h1, _⟩
        · exact Or.inl (by rw [List.foldl_cons, h, h1])
        · refine Or.inr ?_
          rw [List.foldl_cons, h, h1]
          exact List.mem_cons_self y ys
      · exact Or.inr (List.mem_cons_of_mem y h)

theorem tensorMax_mem {α : Type} [LinearOrder α] (l : List α) (d : α)
    (h : l ≠ []) : tensorMax l d ∈ l := by
  cases l with
  | nil => exact absurd rfl h
  | cons x xs =>
      rcases foldl_max_self_or_mem xs x with h2 | h2
      · show xs.foldl max x ∈ x :: xs
        rw [h2]
        exact List.mem_cons_self x xs
      · exact List.mem_cons_of_mem x h2

theorem le_tensorMax {α : Type} [LinearOrder α] (l : List α) (d a : α)
    (h : a ∈ l) : a ≤ tensorMax l d := by
  cases l with
  | nil => cases h
  | cons x xs =>
      show a ≤ xs.foldl max x
      rcases List.mem_cons.mp h with rfl | h2
      · exact le_foldl_max xs a
      · exact mem_le_foldl_max xs x a h2

theorem getD_zipWith {α β γ : Type} (f : α → β → γ) (l1 : List α) (l2 : List β)
    (i : ℕ) (d1 : α) (d2 : β) (d3 : γ) (h1 : i < l1.length) (h2 : i < l2.length) :
    (List.zipWith f l1 l2).getD i d3 = f (l1.getD i d1) (l2.getD i d2) := by
  induction l1 generalizing l2 i with
  | nil => simp at h1
  | cons x xs ih =>
      cases l2 with
      | nil => simp at h2
      | cons y ys =>
          cases i with
          | zero => rfl
          | succ j =>
              simp only [List.length_cons, Nat.succ_lt_succ_iff] at h1 h2
              simpa using ih ys j h1 h2

theorem getD_map {α β : Type} (f : α → β) (l : List α) (i : ℕ) (d1 : α) (d2 : β)
    (h : i < l.length) : (l.map f).getD i d2 = f (l.getD i d1) := by
  induction l generalizing i with
  | nil => simp at h
  | cons x xs ih =>
      cases i with
      | zero => rfl
      | succ j =>
          simp only [List.length_cons, Nat.succ_lt_succ_iff] at h
          simpa using ih j h

theorem zipWith_snd_of_le {α β : Type} (l1 : List α) (l2 : List β)
    (h : l2.length ≤ l1.length) : List.zipWith (fun _a b => b) l1 l2 = l2 := by
  induction l1 generalizing l2 with
  | nil =>
      cases l2 with
      | nil => rfl
      | cons y ys => simp at h
  | cons x xs ih =>
      cases l2 with
      | nil => rfl
      | cons y ys =>
          simp only [List.length_cons, Nat.succ_le_succ_iff] at h
          simpa using ih ys h

/-- Helper for C1: an episode consists of non-terminal steps `mid`
followed by one terminal step `last`.  As long as the window plus the
non-terminal steps stay strictly below the capacity, the run emits exactly
one transition (at the terminal step) and ends with an empty window. -/
theorem runUpdates_episode (mid : List Transition) (last : Transition) :
    ∀ b : NStepBuffer, (∀ t ∈ mid, t.done = false) → last.done = true →
      b.window.length + mid.length < b.n_step →
      (runUpdates b (mid ++ [last])).1.length = 1 ∧
        (runUpdates b (mid ++ [last])).2.window = [] := by
  induction mid with
  | nil =>
      intro b _ hlast _
      simp only [List.nil_append, runUpdates, NStepBuffer.update]
      rw [if_neg (by simp [hlast]), if_pos hlast]
      simp [runUpdates]
  | cons t mid ih =>
      intro b hmid hlast hlen
      have ht : t.done = false := hmid t (List.mem_cons_self t mid)
      have hw : (b.window ++ [t]).length < b.n_step := by
        simp only [List.length_append, List.length_cons, List.length_nil] at hlen ⊢
        omega
      simp only [List.cons_append, runUpdates, NStepBuffer.update]
      rw [if_pos ⟨hw, ht⟩]
      simp only [Option.toList_none, List.nil_append]
      exact ih _ (fun x hx => hmid x (List.mem_cons_of_mem t hx)) hlast
        (by simp only [List.length_append, List.length_cons, List.length_nil] at hlen ⊢
            omega)

/-! ## Claims -/

/-- C1, counterexample: feeding the two-step episode `cexEpisode`
(length L = 2 < n = 3, terminal last step) into a fresh accumulator emits
exactly one synthesized transition, not L = 2 as the claim states — each
`update` call returns at most one `Optional[Transition]` and only the
terminal call emits, so no drain of every remaining partial window
happens. -/
theorem C1_counterexample :
    cexEpisode.length = 2 ∧ (runUpdates cexBuffer cexEpisode).1.length ≠ 2 := by
  constructor
  · rfl
  · decide

/-- C1, amended: for every capacity n and every episode of length L with
1 ≤ L < n fed step-by-step into the accumulator's update (the last step
with done = true), the accumulator emits exactly ONE synthesized
transition in total — at the terminal call — and then resets its window to
empty; `update` returns at most one `Optional[Transition]` per call and
`remember` forwards at most one transition per environment step. -/
theorem C1_theorem (g : ℚ) (n : ℕ) (mid : List Transition) (last : Transition)
    (hmid : ∀ t ∈ mid, t.done = false) (hlast : last.done = true)
    (hlen : mid.length + 1 < n) :
    (runUpdates { window := [], gamma := g, n_step := n } (mid ++ [last])).1.length = 1 ∧
      (runUpdates { window := [], gamma := g, n_step := n } (mid ++ [last])).2.window = [] :=
  runUpdates_episode mid last { window := [], gamma := g, n_step := n } hmid hlast
    (by simp only [List.length_nil]; omega)

/-- C1, witness: the amended statement instantiated at a concrete episode
of length 2 and capacity 4. -/
theorem C1_witness :
    (∀ t ∈ [({ state := 0, action := 0, reward := 1, next_state := 1, done := false } :
        Transition)], t.done = false) ∧
    ({ state := 1, action := 0, reward := 1, next_state := 2, done := true } :
        Transition).done = true ∧
    (runUpdates { window := [], gamma := 1/2, n_step := 4 }
        ([{ state := 0, action := 0, reward := 1, next_state := 1, done := false }] ++
          [{ state := 1, action := 0, reward := 1, next_state := 2, done := true }])).1.length
      = 1 :=
  ⟨by decide, rfl,
    (C1_theorem (1/2) 4
      [{ state := 0, action := 0, reward := 1, next_state := 1, done := false }]
      { state := 1, action := 0, reward := 1, next_state := 2, done := true }
      (by decide) rfl (by decide)).1⟩

/-- C2, counterexample: at `curr_q = [3]` and `target = [1]` the learner
passes `|loss| = |(3-1)^2| = 4` to `update_priority`, while the absolute
TD-error of the claim is `|3-1| = 2`. -/
theorem C2_counterexample :
    priorityValuesWritten [3] [1] ≠ absTDError [3] [1] := by
  norm_num [priorityValuesWritten, mseLossNone, absTDError]

/-- C2, amended: the value the learner writes back as the new priority of
each sampled index is the absolute value of the reduction-free MSE loss,
i.e. the SQUARED TD-error `(Q(s,a) - target)^2` for that sample (the
absolute value is redundant on a square), not the absolute TD-error. -/
theorem C2_theorem (pred target : List ℚ) :
    priorityValuesWritten pred target =
      List.zipWith (fun q t => (q - t) ^ 2) pred target := by
  unfold priorityValuesWritten mseLossNone
  rw [List.map_zipWith]
  simp [abs_pow, sq_abs]

/-- C3: the bootstrap target used in the loss equals
`r + (1 - done) * gamma ^ n_step * max_a Q_target(next_state, a)`
elementwise over the batch — the discount is the compounded `gamma ^ n`,
not a single `gamma`. -/
theorem C3_theorem (gamma : ℚ) (n : ℕ) (rewards dones : List ℚ)
    (nextQ : List (List ℚ)) (i : ℕ) (h1 : rewards.length = dones.length)
    (h2 : dones.length = nextQ.length) (hi : i < rewards.length) :
    (bootstrapTargets gamma n rewards dones nextQ).getD i 0 =
      rewards.getD i 0 + (1 - dones.getD i 0) * gamma ^ n *
        tensorMax (nextQ.getD i []) 0 := by
  unfold bootstrapTargets maxNextQ
  rw [getD_zipWith (fun rd mq => rd.1 + (1 - rd.2) * gamma ^ n * mq)
      (rewards.zip dones) (nextQ.map (fun row => tensorMax row 0)) i (0, 0) 0 0
      (by rw [List.length_zip]; omega) (by rw [List.length_map]; omega)]
  rw [show rewards.zip dones = List.zipWith Prod.mk rewards dones from rfl]
  rw [getD_zipWith Prod.mk rewards dones i 0 0 (0, 0) hi (by omega)]
  rw [getD_map (fun row => tensorMax row 0) nextQ i [] 0 (by omega)]

/-- C3, witness: the target formula instantiated on a concrete batch of
two samples at index 0. -/
theorem C3_witness :
    [(1 : ℚ), 2].length = [(0 : ℚ), 1].length ∧ (0 : ℕ) < [(1 : ℚ), 2].length ∧
    (bootstrapTargets (1/2) 3 [1, 2] [0, 1] [[1, 5], [2, 0]]).getD 0 0 =
      [(1 : ℚ), 2].getD 0 0 + (1 - [(0 : ℚ), 1].getD 0 0) * (1/2) ^ 3 *
        tensorMax ([[(1 : ℚ), 5], [2, 0]].getD 0 []) 0 :=
  ⟨rfl, by decide,
    C3_theorem (1/2) 3 [1, 2] [0, 1] [[1, 5], [2, 0]] 0 rfl rfl (by decide)⟩

/-- C4: whenever `train` is called while the replay store's occupied size
is strictly below `batch_size`, it returns the not-ready sentinel
`-float("inf")` and leaves the whole agent state — online and target
parameters, replay contents and priorities, epsilon and beta — unchanged;
the result does not depend on the loop body `step` at all, so no
sampling, gradient step, priority update or soft update occurs. -/
theorem C4_theorem (step : AgentState → ℚ × AgentState) (s : AgentState)
    (epochs : ℕ) (h : s.memSize < s.batch_size) :
    train step s epochs = (TrainResult.negInf, s) := by
  unfold train
  rw [if_pos h]

/-- C4, witness: the sentinel return on a concrete under-filled state. -/
theorem C4_witness :
    smallAgentState.memSize < smallAgentState.batch_size ∧
    train (fun s => (0, s)) smallAgentState 1 = (TrainResult.negInf, smallAgentState) :=
  ⟨by decide, C4_theorem (fun s => (0, s)) smallAgentState 1 (by decide)⟩

/-- C5: with `N > 0` and strictly positive sampled priorities, the
importance-sampling weights `(N * p) ^ (-beta)` divided by their maximum
have maximum exactly `1`, and no weight exceeds `1`. -/
theorem C5_theorem (N beta : ℝ) (ps : List ℝ) (hne : ps ≠ []) (hN : 0 < N)
    (hp : ∀ p ∈ ps, 0 < p) :
    tensorMax (normalizeByMax (isWeights N beta ps)) 0 = 1 ∧
      ∀ x ∈ normalizeByMax (isWeights N beta ps), x ≤ 1 := by
  have hwne : isWeights N beta ps ≠ [] := by
    simpa [isWeights] using hne
  have hwpos : ∀ x ∈ isWeights N beta ps, 0 < x := by
    intro x hx
    obtain ⟨p, hpmem, rfl⟩ := List.mem_map.mp hx
    exact Real.rpow_pos_of_pos (mul_pos hN (hp p hpmem)) _
  have hMmem : tensorMax (isWeights N beta ps) 0 ∈ isWeights N beta ps :=
    tensorMax_mem _ 0 hwne
  have hMpos : 0 < tensorMax (isWeights N beta ps) 0 := hwpos _ hMmem
  have hle : ∀ x ∈ normalizeByMax (isWeights N beta ps), x ≤ 1 := by
    intro x hx
    obtain ⟨y, hy, rfl⟩ := List.mem_map.mp hx
    exact (div_le_one hMpos).mpr (le_tensorMax _ 0 y hy)
  refine ⟨?_, hle⟩
  have h1mem : (1 : ℝ) ∈ normalizeByMax (isWeights N beta ps) := by
    refine List.mem_map.mpr ⟨tensorMax (isWeights N beta ps) 0, hMmem, ?_⟩
    exact div_self (ne_of_gt hMpos)
  have hnne : normalizeByMax (isWeights N beta ps) ≠ [] := by
    simpa [normalizeByMax] using hwne
  exact le_antisymm (hle _ (tensorMax_mem _ 0 hnne)) (le_tensorMax _ 0 1 h1mem)

/-- C5, witness: the normalized weights of a concrete two-sample batch
have maximum exactly one. -/
theorem C5_witness :
    ([(1 : ℝ)/2, 1] ≠ []) ∧ (0 : ℝ) < 2 ∧
    tensorMax (normalizeByMax (isWeights 2 (2/5) [1/2, 1])) 0 = 1 :=
  ⟨by simp, by norm_num,
    (C5_theorem 2 (2/5) [1/2, 1] (by simp) (by norm_num)
      (by intro p hp
          rcases List.mem_cons.mp hp with rfl | hp2
          · norm_num
          · rcases List.mem_cons.mp hp2 with rfl | hp3
            · norm_num
            · cases hp3)).1⟩

/-- C6, counterexample: beta is NOT clamped at 1.0.  Starting from
`beta = 9/10 ≤ 1` with `beta_decay = 1/5`, one training step sets
`beta = 9/10 * (1 + 1/5) = 27/25 > 1`. -/
theorem C6_counterexample :
    (9/10 : ℚ) ≤ 1 ∧ 1 < betaStep (9/10) (1/5) := by
  constructor
  · norm_num
  · norm_num [betaStep]

/-- C6, amended: after each training step beta is multiplied by
`1 + beta_decay` if it was below 1 and left unchanged otherwise; there is
no clamp at 1.0, so beta can overshoot 1, but for `beta_decay ≥ 0` it
never exceeds `1 + beta_decay` along any sequence of steps starting from
`beta ≤ 1`, and once beta reaches or exceeds 1 it no longer changes. -/
theorem C6_theorem (b d : ℚ) (k : ℕ) (hb : b ≤ 1) (hd : 0 ≤ d) :
    (fun x => betaStep x d)^[k] b ≤ 1 + d ∧ (1 ≤ b → betaStep b d = b) := by
  constructor
  · have hstep : ∀ x : ℚ, x ≤ 1 + d → betaStep x d ≤ 1 + d := by
      intro x hx
      unfold betaStep
      by_cases h1 : x < 1
      · rw [if_pos h1]
        calc x * (1 + d) ≤ 1 * (1 + d) :=
              mul_le_mul_of_nonneg_right (le_of_lt h1) (by linarith)
          _ = 1 + d := one_mul _
      · rw [if_neg h1, mul_one]
        exact hx
    have hinit : b ≤ 1 + d := by linarith
    clear hb
    induction k generalizing b with
    | zero => simpa using hinit
    | succ m ih =>
        rw [Function.iterate_succ_apply]
        exact ih (betaStep b d) (hstep b hinit)
  · intro h1
    unfold betaStep
    rw [if_neg (not_lt.mpr h1), mul_one]

/-- C6, witness: the amended bound instantiated at `beta = 1/2`,
`beta_decay = 1/100`, three training steps. -/
theorem C6_witness :
    (1/2 : ℚ) ≤ 1 ∧ (0 : ℚ) ≤ 1/100 ∧
    (fun x => betaStep x (1/100))^[3] (1/2) ≤ 1 + 1/100 :=
  ⟨by norm_num, by norm_num, (C6_theorem (1/2) (1/100) 3 (by norm_num) (by norm_num)).1⟩

/-- C7: one call of `update_target` sets the target parameters to exactly
`(1 - tau) * old_target + tau * online`, elementwise over every parameter
pair, and leaves the online network's parameters untouched. -/
theorem C7_theorem (s : AgentState) :
    (update_target s).targetParams =
      List.zipWith (fun t p => (1 - s.tau) * t + s.tau * p)
        s.targetParams s.dqnParams ∧
    (update_target s).dqnParams = s.dqnParams := by
  constructor
  · show softUpdate s.tau s.targetParams s.dqnParams = _
    unfold softUpdate
    congr 1
    funext t p
    ring
  · rfl

/-- C8: every call of `act` — evaluation calls included — first updates
epsilon to `max(epsilon * epsilon_decay, min_epsilon)`; hence after any
call epsilon is at least `min_epsilon` and (for a genuine decay factor
`epsilon_decay ≤ 1`, a nonnegative epsilon and a floor not above the
current epsilon) never increases; and with `evaluate = true` the returned
action is the argmax of the online network's output, whatever the random
draw `u` is. -/
theorem C8_theorem (eps decay minEps u : ℚ) (randAct : ℕ) (qOut : List ℚ)
    (evaluate : Bool) (h0 : 0 ≤ eps) (h1 : decay ≤ 1) (h2 : minEps ≤ eps) :
    (act eps decay minEps u randAct qOut evaluate).2 = decayedEpsilon eps decay minEps ∧
    minEps ≤ (act eps decay minEps u randAct qOut evaluate).2 ∧
    (act eps decay minEps u randAct qOut evaluate).2 ≤ eps ∧
    (act eps decay minEps u randAct qOut true).1 = argmaxIdx qOut := by
  have hsnd : (act eps decay minEps u randAct qOut evaluate).2 =
      decayedEpsilon eps decay minEps := by
    unfold act
    by_cases hc : u < decayedEpsilon eps decay minEps ∧ evaluate = false
    · rw [if_pos hc]
    · rw [if_neg hc]
  refine ⟨hsnd, ?_, ?_, ?_⟩
  · rw [hsnd]
    exact le_max_right _ _
  · rw [hsnd]
    exact max_le (mul_le_of_le_one_right h0 h1) h2
  · unfold act
    rw [if_neg (by simp)]

/-- C8, witness: concrete call with a draw below epsilon; in evaluation
mode the argmax is still returned and epsilon still decays. -/
theorem C8_witness :
    (0 : ℚ) ≤ 1/2 ∧ (999/1000 : ℚ) ≤ 1 ∧ (1/100 : ℚ) ≤ 1/2 ∧
    (act (1/2) (999/1000) (1/100) 0 7 [1, 3, 2] true).2 =
      decayedEpsilon (1/2) (999/1000) (1/100) ∧
    (act (1/2) (999/1000) (1/100) 0 7 [1, 3, 2] true).1 = argmaxIdx [1, 3, 2] := by
  refine ⟨by norm_num, by norm_num, by norm_num, ?_, ?_⟩
  · exact (C8_theorem (1/2) (999/1000) (1/100) 0 7 [1, 3, 2] true
      (by norm_num) (by norm_num) (by norm_num)).1
  · exact (C8_theorem (1/2) (999/1000) (1/100) 0 7 [1, 3, 2] true
      (by norm_num) (by norm_num) (by norm_num)).2.2.2

/-- C9: every invocation of `train` with `epochs = k ≥ 1` that passes the
readiness check performs exactly one loop-body iteration — one
sample/loss/priority-update/gradient/soft-update pass, abstracted as
`step` — and returns that single iteration's loss together with the state
after that single pass, independently of `k`. -/
theorem C9_theorem (step : AgentState → ℚ × AgentState) (s : AgentState)
    (k : ℕ) (hk : 1 ≤ k) (hready : s.batch_size ≤ s.memSize) :
    train step s k = (TrainResult.loss (step s).1, (step s).2) := by
  unfold train
  rw [if_neg (not_lt.mpr hready)]
  cases k with
  | zero => exact absurd hk (by norm_num)
  | succ m => rfl

/-- C9, witness: a concrete ready state trained with `epochs = 5` returns
the result of a single application of the loop body. -/
theorem C9_witness :
    (1 : ℕ) ≤ 5 ∧ readyAgentState.batch_size ≤ readyAgentState.memSize ∧
    train (fun s => (0, s)) readyAgentState 5 =
      (TrainResult.loss 0, readyAgentState) :=
  ⟨by norm_num, by decide,
    C9_theorem (fun s => (0, s)) readyAgentState 5 (by norm_num) (by decide)⟩

/-- C10: after `load_model` the target network's parameters equal the
online network's (both set from the same checkpoint), and the
synchronization loop in `DQNAgent.__init__` likewise leaves the two
networks with identical parameters whenever they enumerate equally many
parameters (the copy direction there is target into online). -/
theorem C10_theorem (checkpoint : List ℚ) (s : AgentState)
    (dqnP targetP : List ℚ) (hlen : dqnP.length = targetP.length) :
    (load_model checkpoint s).dqnParams = (load_model checkpoint s).targetParams ∧
    (initSync dqnP targetP).1 = (initSync dqnP targetP).2 := by
  constructor
  · rfl
  · show List.zipWith (fun _a b => b) dqnP targetP = targetP
    exact zipWith_snd_of_le dqnP targetP (le_of_eq hlen.symm)

/-- C10, witness: loading a concrete checkpoint synchronizes both
networks, and the constructor loop synchronizes two concrete equal-length
parameter vectors. -/
theorem C10_witness :
    ([(1 : ℚ), 2].length = [(3 : ℚ), 4].length) ∧
    (load_model [5, 6] smallAgentState).dqnParams =
      (load_model [5, 6] smallAgentState).targetParams ∧
    (initSync [(1 : ℚ), 2] [(3 : ℚ), 4]).1 = (initSync [(1 : ℚ), 2] [(3 : ℚ), 4]).2 :=
  ⟨rfl, (C10_theorem [5, 6] smallAgentState [1, 2] [3, 4] rfl).1,
    (C10_theorem [5, 6] smallAgentState [1, 2] [3, 4] rfl).2⟩

end TuringRetro
